import Mathlib

/- Shallow embedding of the WhatsApp multi-agent orchestration core:
   src/agents/base_agent.py, rag_agent.py, gemini_agent.py,
   web_search_agent.py, context_agent.py, orchestrator.py.
   Python strings are modelled as Lean String (with List Char for
   character-level operations), floats as exact rationals, raised
   exceptions as Except String, and external backends (Pinecone, Gemini,
   Serper, OpenAI, the SQL store) as explicit function parameters. -/

/-- Python-style JSON-like value, used for agent metadata dictionaries. -/
inductive PyVal where
  | pnone
  | b (v : Bool)
  | i (v : Int)
  | q (v : ℚ)
  | s (v : String)
  | arr (vs : List PyVal)
  | dict (fs : List (String × PyVal))

/-- Whitespace characters handled by the model of Python str.strip
    (the claims only ever involve these four). -/
def isPyWs (c : Char) : Bool := c == ' ' || c == '\t' || c == '\n' || c == '\r'

/-- Drop leading whitespace of a character list. -/
def trimLeftCh (l : List Char) : List Char := l.dropWhile isPyWs

/-- Drop trailing whitespace of a character list. -/
def trimRightCh (l : List Char) : List Char := (l.reverse.dropWhile isPyWs).reverse

/-- Python str.strip on a character list. -/
def pyTrimCh (l : List Char) : List Char := trimRightCh (trimLeftCh l)

/-- Python str.strip. -/
def pyStrip (s : String) : String := ⟨pyTrimCh s.toList⟩

/-- Python str.lower (ASCII, which covers all fixed word lists in the source). -/
def lowerStr (s : String) : String := ⟨s.toList.map Char.toLower⟩

/-- Python str.capitalize: first character upper-cased, the rest lower-cased. -/
def pyCapitalize (s : String) : String :=
  match s.toList with
  | [] => ""
  | c :: rest => ⟨c.toUpper :: rest.map Char.toLower⟩

/-- Starts-with test on character lists. -/
def startsWithCh : List Char → List Char → Bool
  | [], _ => true
  | _ :: _, [] => false
  | a :: as, b :: bs => a == b && startsWithCh as bs

/-- Contiguous-occurrence test on character lists. -/
def hasSubCh (needle : List Char) : List Char → Bool
  | [] => needle.isEmpty
  | c :: rest => startsWithCh needle (c :: rest) || hasSubCh needle rest

/-- Python substring containment test, `needle in hay`. -/
def strContains (hay needle : String) : Bool := hasSubCh needle.toList hay.toList

/-- Python `a or b` on strings: `b` exactly when `a` is empty. -/
def pyOr (a b : String) : String := if a = "" then b else a

/-- Python int() applied to an exact rational: truncation toward zero. -/
def pyIntOfRat (q : ℚ) : Int := if 0 ≤ q then Int.floor q else Int.ceil q

/-- Prepend a character to the first segment of a split result. -/
def consHead (c : Char) : List (List Char) → List (List Char)
  | [] => [[c]]
  | h :: t => (c :: h) :: t

/-- Python str.split("|||") on a character list: non-overlapping matches of
    the triple-pipe delimiter, scanned left to right. -/
def splitPipes : List Char → List (List Char)
  | [] => [[]]
  | c :: rest =>
    let tailSplit := consHead c (splitPipes rest)
    if c = '|' then
      match rest with
      | c2 :: c3 :: rest2 =>
        if c2 = '|' ∧ c3 = '|' then [] :: splitPipes rest2
        else tailSplit
      | _ => tailSplit
    else tailSplit

/-- Append a character to the last segment of a split result. -/
def appendLast (c : Char) : List (List Char) → List (List Char)
  | [] => [[c]]
  | [x] => [x ++ [c]]
  | x :: y :: t => x :: appendLast c (y :: t)

/-- Python str.split("|||") at the String level. -/
def split_pipes_str (s : String) : List String :=
  (splitPipes s.toList).map fun l => (⟨l⟩ : String)

-- Basic lemmas about splitPipes ---------------------------------------------

theorem consHead_ne_nil (c : Char) (xs : List (List Char)) : consHead c xs ≠ [] := by
  cases xs <;> simp [consHead]

theorem splitPipes_eq (c : Char) (l : List Char) :
    splitPipes (c :: l) =
      if c = '|' ∧ l.take 2 = ['|', '|'] then [] :: splitPipes (l.drop 2)
      else consHead c (splitPipes l) := by
  by_cases hc : c = '|'
  · subst hc
    match l with
    | [] => simp [splitPipes]
    | [c2] => simp [splitPipes]
    | c2 :: c3 :: r =>
      by_cases h23 : c2 = '|' ∧ c3 = '|'
      · obtain ⟨h2, h3⟩ := h23
        subst h2; subst h3
        conv_lhs => unfold splitPipes
        simp
      · conv_lhs => unfold splitPipes
        dsimp only
        rw [if_pos rfl, if_neg h23, if_neg]
        intro ⟨_, htake⟩
        apply h23
        simp only [List.take_cons, List.take] at htake
        exact ⟨by injection htake, by injection htake with _ h; injection h⟩
  · conv_lhs => unfold splitPipes
    dsimp only
    rw [if_neg hc, if_neg (by intro ⟨h1, _⟩; exact hc h1)]

theorem splitPipes_ne_nil (l : List Char) : splitPipes l ≠ [] := by
  cases l with
  | nil => simp [splitPipes]
  | cons c rest =>
    rw [splitPipes_eq]
    split
    · simp
    · exact consHead_ne_nil _ _

theorem splitPipes_cons_not_pipe (c : Char) (l : List Char) (hc : ¬ c = '|') :
    splitPipes (c :: l) = consHead c (splitPipes l) := by
  rw [splitPipes_eq, if_neg (by intro ⟨h1, _⟩; exact hc h1)]

theorem splitPipes_triple (rest : List Char) :
    splitPipes ('|' :: '|' :: '|' :: rest) = [] :: splitPipes rest := by
  rw [splitPipes_eq]
  simp

theorem splitPipes_pipe_not_triple (rest : List Char)
    (h : rest.take 2 ≠ ['|', '|']) :
    splitPipes ('|' :: rest) = consHead '|' (splitPipes rest) := by
  rw [splitPipes_eq, if_neg (by intro ⟨_, h2⟩; exact h h2)]

-- Interaction of Python strip with the triple-pipe split ---------------------

theorem ws_ne_pipe {c : Char} (h : isPyWs c = true) : ¬ c = '|' := by
  intro hc
  subst hc
  exact absurd h (by decide)

theorem trimLeft_cons_ws {c : Char} (l : List Char) (h : isPyWs c = true) :
    trimLeftCh (c :: l) = trimLeftCh l := by
  simp [trimLeftCh, List.dropWhile_cons, h]

theorem trimLeft_cons_not_ws {c : Char} (l : List Char) (h : ¬ isPyWs c = true) :
    trimLeftCh (c :: l) = c :: l := by
  simp [trimLeftCh, List.dropWhile_cons, h]

theorem trimRight_append_ws {c : Char} (l : List Char) (h : isPyWs c = true) :
    trimRightCh (l ++ [c]) = trimRightCh l := by
  simp [trimRightCh, List.reverse_append, List.dropWhile_cons, h]

theorem pyTrim_cons_ws {c : Char} (l : List Char) (h : isPyWs c = true) :
    pyTrimCh (c :: l) = pyTrimCh l := by
  simp [pyTrimCh, trimLeft_cons_ws _ h]

theorem pyTrim_append_ws {c : Char} (l : List Char) (h : isPyWs c = true) :
    pyTrimCh (l ++ [c]) = pyTrimCh l := by
  induction l with
  | nil => simp [pyTrimCh, trimLeftCh, trimRightCh, List.dropWhile_cons, h]
  | cons a l ih =>
    by_cases ha : isPyWs a = true
    · rw [List.cons_append, pyTrim_cons_ws _ ha, pyTrim_cons_ws _ ha, ih]
    · rw [List.cons_append]
      simp only [pyTrimCh, trimLeft_cons_not_ws _ ha]
      rw [← List.cons_append]
      exact trimRight_append_ws _ h

theorem consHead_appendLast (a c : Char) (xs : List (List Char)) (hxs : xs ≠ []) :
    consHead a (appendLast c xs) = appendLast c (consHead a xs) := by
  match xs with
  | [x] => simp [consHead, appendLast]
  | x :: y :: t => simp [consHead, appendLast]

theorem splitPipes_append_last {c : Char} (hc : ¬ c = '|') :
    ∀ n l, l.length ≤ n → splitPipes (l ++ [c]) = appendLast c (splitPipes l) := by
  intro n
  induction n with
  | zero =>
    intro l hl
    have : l = [] := by
      cases l with
      | nil => rfl
      | cons a t => simp at hl
    subst this
    rw [List.nil_append, splitPipes_cons_not_pipe c [] hc]
    rfl
  | succ n ih =>
    intro l hl
    cases l with
    | nil =>
      rw [List.nil_append, splitPipes_cons_not_pipe c [] hc]
      rfl
    | cons a rest =>
      by_cases htr : a = '|' ∧ rest.take 2 = ['|', '|']
      · obtain ⟨ha, htake⟩ := htr
        subst ha
        cases rest with
        | nil => simp at htake
        | cons r1 rest1 =>
          cases rest1 with
          | nil => simp at htake
          | cons r2 rr =>
            simp only [List.take_succ_cons, List.take_zero, List.cons.injEq, and_true] at htake
            obtain ⟨h1, h2⟩ := htake
            subst h1; subst h2
            have hlen : rr.length ≤ n := by
              simp [List.length_cons] at hl
              omega
            rw [show ('|' :: '|' :: '|' :: rr) ++ [c] = '|' :: '|' :: '|' :: (rr ++ [c]) by simp,
                splitPipes_triple, splitPipes_triple, ih rr hlen]
            cases hsp : splitPipes rr with
            | nil => exact absurd hsp (splitPipes_ne_nil rr)
            | cons y t => rfl
      · have hlen : rest.length ≤ n := by
          simp [List.length_cons] at hl
          omega
        have h2 : ¬ (a = '|' ∧ (rest ++ [c]).take 2 = ['|', '|']) := by
          intro ⟨ha, htk⟩
          apply htr
          refine ⟨ha, ?_⟩
          cases rest with
          | nil => simp at htk
          | cons r1 rest1 =>
            cases rest1 with
            | nil =>
              simp at htk
              exact absurd htk.2 hc
            | cons r2 rr => simpa using htk
        rw [List.cons_append, splitPipes_eq, if_neg h2, splitPipes_eq, if_neg htr,
            ih rest hlen]
        exact consHead_appendLast a c (splitPipes rest) (splitPipes_ne_nil rest)

theorem mapTrim_appendLast {c : Char} (h : isPyWs c = true) :
    ∀ xs : List (List Char), xs ≠ [] →
      (appendLast c xs).map pyTrimCh = xs.map pyTrimCh
  | [x], _ => by simp [appendLast, pyTrim_append_ws _ h]
  | x :: y :: t, _ => by
    simp only [appendLast, List.map_cons, List.cons.injEq, true_and]
    have := mapTrim_appendLast h (y :: t) (by simp)
    simpa [appendLast] using this

theorem mapTrim_splitPipes_trimLeft (l : List Char) :
    (splitPipes (trimLeftCh l)).map pyTrimCh = (splitPipes l).map pyTrimCh := by
  induction l with
  | nil => rfl
  | cons c l ih =>
    by_cases h : isPyWs c = true
    · rw [trimLeft_cons_ws _ h, ih, splitPipes_cons_not_pipe c l (ws_ne_pipe h)]
      cases hsp : splitPipes l with
      | nil => exact absurd hsp (splitPipes_ne_nil l)
      | cons x t => simp [consHead, pyTrim_cons_ws _ h]
    · rw [trimLeft_cons_not_ws _ h]

theorem mapTrim_splitPipes_trimRight (l : List Char) :
    (splitPipes (trimRightCh l)).map pyTrimCh = (splitPipes l).map pyTrimCh := by
  induction l using List.reverseRecOn with
  | nil => rfl
  | append_singleton m c ih =>
    by_cases h : isPyWs c = true
    · rw [trimRight_append_ws _ h, ih,
          splitPipes_append_last (ws_ne_pipe h) m.length m le_rfl,
          mapTrim_appendLast h (splitPipes m) (splitPipes_ne_nil m)]
    · have : trimRightCh (m ++ [c]) = m ++ [c] := by
        simp [trimRightCh, List.reverse_append, List.dropWhile_cons, h]
      rw [this]

theorem mapTrim_splitPipes_pyTrim (l : List Char) :
    (splitPipes (pyTrimCh l)).map pyTrimCh = (splitPipes l).map pyTrimCh := by
  show (splitPipes (trimRightCh (trimLeftCh l))).map pyTrimCh = _
  rw [mapTrim_splitPipes_trimRight, mapTrim_splitPipes_trimLeft]

-- Data model -----------------------------------------------------------------

/-- The normalized result dictionary produced by BaseAgent.execute. -/
structure AgentResult where
  agent : String
  success : Bool
  response : String
  confidence : Int
  sources : List String
  metadata : List (String × PyVal)
  response_time_ms : Int
  error : Option String

/-- The dictionary a concrete agent process() returns; each field is optional
    because execute() reads it with dict.get and a default. -/
structure ProcResult where
  response? : Option String
  confidence? : Option Int
  sources? : Option (List String)
  metadata? : Option (List (String × PyVal))

/-- The mutable per-agent fields BaseAgent.execute writes on self. -/
structure AgentMut where
  response_time_ms : Option Int
  success : Bool
  error : Option String

/-- BaseAgent.execute: wraps one process() outcome (a raised exception is the
    Except.error case) into a normalized AgentResult and updates the agent's
    mutable fields. Total by construction: it never raises. The elapsed
    milliseconds are an ambient parameter (the wall clock). -/
def execute (name : String) (elapsed : Int) (proc : Except String ProcResult)
    (st : AgentMut) : AgentResult × AgentMut :=
  match proc with
  | .ok r =>
    (⟨name, true, r.response?.getD "", r.confidence?.getD 50, r.sources?.getD [],
      r.metadata?.getD [], elapsed, Option.none⟩,
     ⟨Option.some elapsed, true, st.error⟩)
  | .error e =>
    (⟨name, false, "", 0, [], [], elapsed, Option.some e⟩,
     ⟨Option.some elapsed, false, Option.some e⟩)

-- RAG agent (rag_agent.py) ---------------------------------------------------

/-- One Pinecone match: a similarity score plus optional metadata fields,
    modelling dict.get on the stored metadata. Scores are exact rationals. -/
structure RagMatch where
  score : ℚ
  text : Option String
  source : Option String
  book : Option String
  chapter : Option PyVal
  verse : Option PyVal

/-- Matches kept by the `match.score > 0.7` filter, in retrieval order. -/
def rag_surviving (ms : List RagMatch) : List RagMatch :=
  ms.filter fun m => 7/10 < m.score

/-- The passage dictionary built for each surviving match. -/
def rag_passage_dict (m : RagMatch) : List (String × PyVal) :=
  [("text", .s (m.text.getD "")), ("source", .s (m.source.getD "")),
   ("book", .s (m.book.getD "")), ("chapter", m.chapter.getD .pnone),
   ("verse", m.verse.getD .pnone), ("score", .q m.score)]

/-- Source strings of surviving passages (`metadata.get("source", "Unknown")`). -/
def rag_sources (ms : List RagMatch) : List String :=
  (rag_surviving ms).map fun m => m.source.getD "Unknown"

/-- RAGAgent._format_response. -/
def rag_format_response (passages : List RagMatch) : String :=
  String.intercalate "\n\n"
    (passages.map fun m => (m.source.getD "") ++ ":\n" ++ (m.text.getD ""))

/-- The fixed no-results response of the RAG agent. -/
def rag_no_results : String := "No relevant scripture passages found for this query."

/-- Confidence computed by RAGAgent.process: `int(passages[0]["score"] * 100)`
    when any passage survives, else 0. -/
def rag_confidence (ms : List RagMatch) : Int :=
  match rag_surviving ms with
  | [] => 0
  | p :: _ => pyIntOfRat (p.score * 100)

/-- Response text of RAGAgent.process. -/
def rag_response_text (ms : List RagMatch) : String :=
  match rag_surviving ms with
  | [] => rag_no_results
  | _ :: _ => rag_format_response (rag_surviving ms)

/-- RAGAgent.process: `search` models the embedding call plus the Pinecone
    query (either of which may raise). -/
def rag_process (search : Except String (List RagMatch)) : Except String ProcResult :=
  search.map fun ms =>
    ⟨Option.some (rag_response_text ms), Option.some (rag_confidence ms),
     Option.some (rag_sources ms),
     Option.some
       [("num_passages", .i (rag_surviving ms).length),
        ("passages", .arr ((rag_surviving ms).map fun m => .dict (rag_passage_dict m)))]⟩

-- Gemini agent (gemini_agent.py) ---------------------------------------------

def uncertainty_words : List String :=
  ["might", "maybe", "perhaps", "possibly", "i think", "i believe", "not sure", "unclear"]

def definitive_words : List String :=
  ["according to", "as mentioned in", "specifically", "definitely", "clearly"]

/-- Number of distinct phrases of `ws` occurring in the lowered response. -/
def count_matched (ws : List String) (lowered : String) : Int :=
  ((ws.filter fun w => strContains lowered w).length : Int)

/-- GeminiAgent._estimate_confidence. -/
def estimate_confidence (response : String) : Int :=
  let lowered := lowerStr response
  let c := 70 - 10 * count_matched uncertainty_words lowered
             + 10 * count_matched definitive_words lowered
  max 0 (min 100 c)

/-- Conversation-history entry as stored/returned by the context agent. -/
structure HistMsg where
  role : String
  content : String
  message_type : String
  created_at : String
  citations : PyVal

/-- The per-call orchestration context dictionary built by process_query.
    conversation_history is absent (`Option.none`) in the orchestrated flow. -/
structure OrchCtx where
  subscriber_id : String
  query : String
  conversation_history : Option (List HistMsg)

/-- Fixed persona preamble of GeminiAgent._build_prompt. -/
def gemini_preamble : List String :=
  ["You are a knowledgeable Hindu spiritual guide. Answer questions about Hindu philosophy, scriptures, and practices.",
   "",
   "Guidelines:",
   "- Provide accurate information based on Hindu scriptures",
   "- Be respectful and balanced in your responses",
   "- Cite specific scriptures when relevant",
   "- Acknowledge if you\x27re uncertain about something",
   ""]

/-- Python history[-5:]. -/
def lastFive (h : List HistMsg) : List HistMsg := h.drop (h.length - 5)

/-- GeminiAgent._build_prompt. -/
def build_prompt (query : String) (ctx : Option OrchCtx) : String :=
  let base := gemini_preamble
  let withHist :=
    match ctx with
    | Option.none => base
    | Option.some c =>
      match c.conversation_history with
      | Option.none => base
      | Option.some h =>
        if h.isEmpty then base
        else base ++ ["Previous conversation:"]
              ++ ((lastFive h).map fun m => pyCapitalize m.role ++ ": " ++ m.content)
              ++ [""]
  String.intercalate "\n" (withHist ++ ["User: " ++ query, "", "Assistant:"])

/-- GeminiAgent.process: `gen` models model.generate_content plus .text access
    (an Except.error models any raised exception or blocked response). An
    empty text raises ValueError, which execute() will normalize. -/
def gemini_process (gen : String → Except String String) (query : String)
    (ctx : Option OrchCtx) : Except String ProcResult :=
  let prompt := build_prompt query ctx
  match gen prompt with
  | .error e => .error e
  | .ok txt =>
    if txt = "" then .error "Empty response from Gemini"
    else
      let answer := pyStrip txt
      .ok ⟨Option.some answer, Option.some (estimate_confidence answer),
           Option.some ["Gemini AI"],
           Option.some [("model", .s "gemini-2.5-flash"), ("prompt_length", .i prompt.length)]⟩

-- Web search agent (web_search_agent.py) -------------------------------------

/-- One parsed Serper result entry (dict.get-modelled fields). -/
structure WebResult where
  title : Option String
  snippet : Option String
  link : Option String
  position : Option Int

def hindu_keywords : List String :=
  ["hindu", "hinduism", "vedic", "sanskrit", "bhagavad", "gita",
   "veda", "upanishad", "purana", "ramayana", "mahabharata"]

/-- WebSearchAgent._enhance_query. -/
def enhance_query (query : String) : String :=
  if hindu_keywords.any (fun k => strContains (lowerStr query) k) then query
  else query ++ " hinduism"

/-- WebSearchAgent._search: parses the organic results, merges the knowledge
    graph entry at rank 0, and converts any raised exception into []. -/
def web_search_results (raw : Except String (List WebResult × Option WebResult)) :
    List WebResult :=
  match raw with
  | .error _ => []
  | .ok (organic, kg) =>
    let parsed := organic.map fun it =>
      ⟨Option.some (it.title.getD ""), Option.some (it.snippet.getD ""),
       Option.some (it.link.getD ""), Option.some (it.position.getD 0)⟩
    match kg with
    | Option.some k =>
      (⟨Option.some (k.title.getD ""), Option.some (k.snippet.getD ""),
        Option.some (k.link.getD ""), Option.some 0⟩ : WebResult) :: parsed
    | Option.none => parsed

/-- WebSearchAgent._format_results. -/
def format_results (results : List WebResult) : String :=
  if results.isEmpty then "No results found."
  else
    String.intercalate "\n\n"
      ((results.take 5).enum.map fun p =>
        Nat.repr (p.1 + 1) ++ ". " ++ (p.2.title.getD "No title") ++ "\n"
          ++ (p.2.snippet.getD "No description"))

/-- WebSearchAgent._extract_sources. -/
def extract_sources (results : List WebResult) : List String :=
  ((results.take 5).map fun r => r.link.getD "").filter fun l => ¬ l = ""

/-- WebResult rendered back into a PyVal dict (for raw_results metadata). -/
def web_result_pyval (r : WebResult) : PyVal :=
  .dict [("title", .s (r.title.getD "")), ("snippet", .s (r.snippet.getD "")),
         ("link", .s (r.link.getD "")), ("position", .i (r.position.getD 0))]

/-- WebSearchAgent.process: never raises, because _search traps all backend
    errors and returns an empty list. -/
def web_process (search : String → Except String (List WebResult × Option WebResult))
    (query : String) : ProcResult :=
  let enhanced := enhance_query query
  let results := web_search_results (search enhanced)
  if results.isEmpty then
    ⟨Option.some "No web results found for this query.", Option.some 0,
     Option.some [], Option.some []⟩
  else
    ⟨Option.some (format_results results),
     Option.some (min ((results.length : Int) * 20) 100),
     Option.some (extract_sources results),
     Option.some
       [("num_results", .i results.length), ("query_used", .s enhanced),
        ("raw_results", .arr ((results.take 3).map web_result_pyval))]⟩

-- Context agent (context_agent.py) -------------------------------------------

/-- ContextAgent._format_history. -/
def format_history (h : List HistMsg) : String :=
  if h.isEmpty then "No previous conversation."
  else String.intercalate "\n" (h.map fun m => pyCapitalize m.role ++ ": " ++ m.content)

/-- One history entry rendered as the dict _get_conversation_history builds. -/
def hist_msg_pyval (m : HistMsg) : PyVal :=
  .dict [("role", .s m.role), ("content", .s m.content),
         ("message_type", .s m.message_type), ("created_at", .s m.created_at),
         ("citations", m.citations)]

/-- ContextAgent._get_conversation_history: any database exception is trapped
    and yields []. `histGet` models the user lookup plus message query. -/
def get_conversation_history
    (histGet : String → Nat → Except String (List HistMsg))
    (subscriber_id : String) (limit : Nat) : List HistMsg :=
  match histGet subscriber_id limit with
  | .ok h => h
  | .error _ => []

/-- ContextAgent._get_user_info: any database exception yields the empty dict. -/
def get_user_info (userGet : String → Except String PyVal)
    (subscriber_id : String) : PyVal :=
  match userGet subscriber_id with
  | .ok v => v
  | .error _ => .dict []

/-- ContextAgent.process: total (all failure paths are trapped internally). -/
def context_process
    (histGet : String → Nat → Except String (List HistMsg))
    (userGet : String → Except String PyVal)
    (maxHistory : Nat) (ctx : Option OrchCtx) : ProcResult :=
  match ctx with
  | Option.none =>
    ⟨Option.some "No conversation history available.", Option.some 0,
     Option.some [], Option.some []⟩
  | Option.some c =>
    let history := get_conversation_history histGet c.subscriber_id maxHistory
    let formatted := format_history history
    let uinfo := get_user_info userGet c.subscriber_id
    ⟨Option.some formatted, Option.some (if history.isEmpty then 0 else 90),
     Option.some ["Conversation History"],
     Option.some
       [("num_messages", .i history.length), ("user_info", uinfo),
        ("history", .arr (history.map hist_msg_pyval))]⟩

/-- Arguments of ContextAgent.save_message. -/
structure SaveArgs where
  subscriber_id : String
  role : String
  content : String
  message_type : String
  agents_used : Option (List String)
  citations : Option PyVal

/-- ContextAgent.save_message: returns False instead of raising when the
    store fails. -/
def save_message (store : SaveArgs → Except String Unit) (args : SaveArgs) : Bool :=
  match store args with
  | .ok _ => true
  | .error _ => false

-- Citation extraction (orchestrator.py _extract_citations) -------------------

/-- A scripture citation extracted from the verified answer. -/
structure Citation where
  book : String
  chapter : Nat
  verse : Nat
  source : String
deriving DecidableEq

/-- Case-insensitive character comparison (re.IGNORECASE on ASCII letters). -/
def charCI (a b : Char) : Bool := a.toLower == b.toLower

/-- Match a literal pattern case-insensitively at the front of the input,
    returning the rest on success. -/
def matchCI : List Char → List Char → Option (List Char)
  | [], rest => Option.some rest
  | _ :: _, [] => Option.none
  | p :: ps, c :: cs => if charCI p c then matchCI ps cs else Option.none

/-- ASCII digit test, modelling the regex \d class. -/
def isDigitCh (c : Char) : Bool := '0' ≤ c && c ≤ '9'

/-- Python int() on a digit run. -/
def digits_to_nat (ds : List Char) : Nat :=
  ds.foldl (fun a c => a * 10 + (c.toNat - 48)) 0

/-- The citation source string: f-string rendering of the matched groups. -/
def citation_source (book : String) (chapter verse : Nat) : String :=
  book ++ ", Chapter " ++ Nat.repr chapter ++ ", Verse " ++ Nat.repr verse

/-- Try the regex
    `As mentioned in ([^,]+), Chapter (\d+), Verse (\d+)` (IGNORECASE)
    anchored at the current position; on success return the Citation and the
    rest of the input after the match. The greedy classes are modelled by
    maximal runs: a longer backtrack can never succeed because the character
    after a maximal run is never a comma. -/
def match_citation_at (l : List Char) : Option (Citation × List Char) :=
  match matchCI "As mentioned in ".toList l with
  | Option.none => Option.none
  | Option.some r1 =>
    let book := r1.takeWhile fun c => ¬ c = ','
    let r2 := r1.dropWhile fun c => ¬ c = ','
    if book.isEmpty then Option.none
    else
      match matchCI ", Chapter ".toList r2 with
      | Option.none => Option.none
      | Option.some r3 =>
        let chapterDs := r3.takeWhile isDigitCh
        let r4 := r3.dropWhile isDigitCh
        if chapterDs.isEmpty then Option.none
        else
          match matchCI ", Verse ".toList r4 with
          | Option.none => Option.none
          | Option.some r5 =>
            let verseDs := r5.takeWhile isDigitCh
            let r6 := r5.dropWhile isDigitCh
            if verseDs.isEmpty then Option.none
            else
              let bookS : String := ⟨pyTrimCh book⟩
              let ch := digits_to_nat chapterDs
              let vs := digits_to_nat verseDs
              Option.some (⟨bookS, ch, vs, citation_source bookS ch vs⟩, r6)

/-- re.finditer scan: try a match at each position, left to right,
    continuing after each match (non-overlapping). Fuel is the input length;
    every step consumes at least one character, so it never runs out early. -/
def extract_citations_aux : Nat → List Char → List Citation
  | 0, _ => []
  | _, [] => []
  | fuel + 1, c :: rest =>
    match match_citation_at (c :: rest) with
    | Option.some (cit, r) => cit :: extract_citations_aux fuel r
    | Option.none => extract_citations_aux fuel rest

/-- MultiAgentOrchestrator._extract_citations. -/
def extract_citations (text : String) : List Citation :=
  extract_citations_aux text.toList.length text.toList

-- Orchestrator (orchestrator.py) ---------------------------------------------

/-- All external collaborators of one orchestrator instance, as deterministic
    functions of their inputs. renderVerify/renderConv model the loaded
    prompt templates applied with str.format (fixed configuration, total). -/
structure Backends where
  ragSearch : String → Except String (List RagMatch)
  webSearch : String → Except String (List WebResult × Option WebResult)
  geminiGen : String → Except String String
  histGet : String → Nat → Except String (List HistMsg)
  userGet : String → Except String PyVal
  verifyCompletion : String → Except String String
  chatCompletion : String → Except String String
  saveStore : SaveArgs → Except String Unit
  renderVerify : String → String → String → String → String → String
  renderConv : String → String

/-- Wall-clock elapsed milliseconds observed by each agent's execute call. -/
structure Timing where
  rag : Int
  ctx : Int
  web : Int
  gemini : Int

/-- The mutable fields of the four agent objects owned by one orchestrator. -/
structure OrchState where
  rag : AgentMut
  ctx : AgentMut
  web : AgentMut
  gemini : AgentMut

/-- MultiAgentOrchestrator._query_all_agents: fan-out to RAG and Context
    always, plus Web and Gemini when use_all; asyncio.gather preserves the
    task order. execute never raises, so the defensive isinstance(Exception)
    filter in the source keeps every result. -/
def query_all_agents (B : Backends) (T : Timing) (maxHistory : Nat)
    (query : String) (ctx : OrchCtx) (use_all : Bool) (st : OrchState) :
    List AgentResult × OrchState :=
  let r1 := execute "RAG_Scripture_Agent" T.rag (rag_process (B.ragSearch query)) st.rag
  let r2 := execute "Context_Memory_Agent" T.ctx
    (.ok (context_process B.histGet B.userGet maxHistory (Option.some ctx))) st.ctx
  if use_all then
    let r3 := execute "Web_Search_Agent" T.web (.ok (web_process B.webSearch query)) st.web
    let r4 := execute "Gemini_AI_Agent" T.gemini
      (gemini_process B.geminiGen query (Option.some ctx)) st.gemini
    ([r1.1, r2.1, r3.1, r4.1], ⟨r1.2, r2.2, r3.2, r4.2⟩)
  else
    ([r1.1, r2.1], ⟨r1.2, r2.2, st.web, st.gemini⟩)

/-- The four response slots of _verify_responses. -/
structure Slots where
  rag : String
  web : String
  gemini : String
  ctx : String

/-- One step of the slot-routing loop of _verify_responses: skip failed
    results, route the rest by substring match on the agent name. -/
def route_step (acc : Slots) (r : AgentResult) : Slots :=
  if ¬ r.success then acc
  else if strContains r.agent "RAG" then { acc with rag := r.response }
  else if strContains r.agent "Web" then { acc with web := r.response }
  else if strContains r.agent "Gemini" then { acc with gemini := r.response }
  else if strContains r.agent "Context" then { acc with ctx := r.response }
  else acc

/-- Slot routing of _verify_responses: successful results only, routed by
    substring match on the agent name, later entries overwriting earlier. -/
def route_slots (rs : List AgentResult) : Slots :=
  rs.foldl route_step ⟨"", "", "", ""⟩

/-- The rendered verification prompt (template.format with `or` defaults). -/
def verify_prompt (B : Backends) (query : String) (rs : List AgentResult) : String :=
  let s := route_slots rs
  B.renderVerify query (pyOr s.rag "No scripture database results")
    (pyOr s.web "No web search results") (pyOr s.gemini "No Gemini response")
    (pyOr s.ctx "No conversation history")

/-- The fixed apology string of the verification fallback. -/
def apology_text : String :=
  "I apologize, but I couldn\x27t generate a verified answer at this time."

/-- The fallback sentinel check substring. -/
def no_relevant_scripture : String := "No relevant scripture"

/-- MultiAgentOrchestrator._verify_responses. On completion failure the
    fallback chain tries the RAG slot first (when non-empty and free of the
    sentinel substring), then Gemini, then RAG again, then the apology. -/
def verify_responses (B : Backends) (query : String) (rs : List AgentResult) : String :=
  match B.verifyCompletion (verify_prompt B query rs) with
  | .ok txt => pyStrip txt
  | .error _ =>
    let s := route_slots rs
    if ¬ s.rag = "" ∧ strContains s.rag no_relevant_scripture = false then s.rag
    else if ¬ s.gemini = "" then s.gemini
    else if ¬ s.rag = "" then s.rag
    else apology_text

/-- MultiAgentOrchestrator._generate_conversational_response. -/
def generate_conversational (B : Backends) (maxMsgs : Nat) (verified : String) :
    List String :=
  match B.chatCompletion (B.renderConv verified) with
  | .error _ => [verified]
  | .ok txt =>
    let result := pyStrip txt
    let msgs := ((split_pipes_str result).filter fun m => ¬ pyStrip m = "").map pyStrip
    let msgs2 := if maxMsgs < msgs.length then msgs.take maxMsgs else msgs
    if msgs2.isEmpty then [verified] else msgs2

/-- A Citation rendered as the dict appended to citations. -/
def citation_pyval (c : Citation) : PyVal :=
  .dict [("book", .s c.book), ("chapter", .i c.chapter), ("verse", .i c.verse),
         ("source", .s c.source)]

/-- The dictionary returned by process_query. -/
structure OrchResult where
  messages : List String
  agents_used : List String
  citations : List Citation
  meta_agent_responses : List AgentResult
  meta_verified_answer : String

/-- MultiAgentOrchestrator.process_query: build the context, fan out, verify,
    chunk, extract citations, best-effort persist both turns, and return.
    Total: every failable collaborator is behind Except and every failure
    path above is trapped, so the function never raises. -/
def process_query (B : Backends) (T : Timing) (maxMsgs maxHistory : Nat)
    (query subscriber_id : String) (use_all_agents : Bool) (st : OrchState) :
    OrchResult × OrchState :=
  let ctx : OrchCtx := ⟨subscriber_id, query, Option.none⟩
  let fanout := query_all_agents B T maxHistory query ctx use_all_agents st
  let agent_responses := fanout.1
  let verified_answer := verify_responses B query agent_responses
  let messages := generate_conversational B maxMsgs verified_answer
  let citations := extract_citations verified_answer
  let savedUser := save_message B.saveStore
    ⟨subscriber_id, "user", query, "text", Option.none, Option.none⟩
  let full_response := String.intercalate " " messages
  let agents_used := (agent_responses.filter fun r => r.success).map fun r => r.agent
  let savedAssistant := save_message B.saveStore
    ⟨subscriber_id, "assistant", full_response, "text", Option.some agents_used,
     Option.some (.arr (citations.map citation_pyval))⟩
  let _ := (savedUser, savedAssistant)
  (⟨messages, agents_used, citations, agent_responses, verified_answer⟩, fanout.2)

/-- MultiAgentOrchestrator.quick_response. -/
def quick_response (B : Backends) (T : Timing) (maxMsgs maxHistory : Nat)
    (query subscriber_id : String) (st : OrchState) : OrchResult × OrchState :=
  process_query B T maxMsgs maxHistory query subscriber_id false st

-- Generic helper lemmas ------------------------------------------------------

theorem map_filter_comm {α β : Type} (f : α → β) (p : β → Bool) (l : List α) :
    (l.filter fun a => p (f a)).map f = (l.map f).filter p := by
  induction l with
  | nil => rfl
  | cons a l ih =>
    by_cases h : p (f a) = true
    · simp [List.filter_cons, List.map_cons, h, ih]
    · simp [List.filter_cons, List.map_cons, h, ih]

-- Claim C3 -------------------------------------------------------------------

/-- C3: BaseAgent.execute is total (process raising is the Except.error case,
    which it absorbs), and whenever the returned AgentResult has
    success = false, its response is the empty string, its confidence is 0,
    its sources and metadata are empty, and its error field is non-null. -/
theorem C3_execute_failure_normalized (name : String) (elapsed : Int)
    (proc : Except String ProcResult) (st : AgentMut)
    (h : (execute name elapsed proc st).1.success = false) :
    (execute name elapsed proc st).1.response = "" ∧
    (execute name elapsed proc st).1.confidence = 0 ∧
    (execute name elapsed proc st).1.sources = [] ∧
    (execute name elapsed proc st).1.metadata = [] ∧
    ¬ (execute name elapsed proc st).1.error = Option.none := by
  cases proc with
  | ok r => simp [execute] at h
  | error e => simp [execute]

def c3_mut : AgentMut := ⟨Option.none, false, Option.none⟩

/-- C3 witness: the failure invariant at a concrete raising process. -/
theorem C3_witness :
    (execute "RAG_Scripture_Agent" 5 (.error "backend down") c3_mut).1.response = "" ∧
    (execute "RAG_Scripture_Agent" 5 (.error "backend down") c3_mut).1.confidence = 0 ∧
    (execute "RAG_Scripture_Agent" 5 (.error "backend down") c3_mut).1.sources = [] ∧
    (execute "RAG_Scripture_Agent" 5 (.error "backend down") c3_mut).1.metadata = [] ∧
    ¬ (execute "RAG_Scripture_Agent" 5 (.error "backend down") c3_mut).1.error = Option.none :=
  C3_execute_failure_normalized "RAG_Scripture_Agent" 5 (.error "backend down") c3_mut rfl

-- Claim C10 ------------------------------------------------------------------

/-- C10: on a successful process() result that omits an expected key,
    execute substitutes fixed defaults: response "", sources [], metadata {},
    and confidence 50 (not 0), while success is true. -/
theorem C10_execute_defaults (name : String) (elapsed : Int) (st : AgentMut)
    (r : ProcResult) :
    (execute name elapsed (.ok r) st).1.success = true ∧
    (execute name elapsed (.ok { r with response? := Option.none }) st).1.response = "" ∧
    (execute name elapsed (.ok { r with confidence? := Option.none }) st).1.confidence = 50 ∧
    (execute name elapsed (.ok { r with sources? := Option.none }) st).1.sources = [] ∧
    (execute name elapsed (.ok { r with metadata? := Option.none }) st).1.metadata = [] := by
  simp [execute]

-- Claim C5 -------------------------------------------------------------------

/-- C5: the RAG agent never exposes a passage with similarity score at or
    below 0.7: every surviving passage scores strictly above 0.7, the sources
    list is exactly the surviving passages' source strings in rank order (so
    its length equals the surviving-passage count), and the response text is
    the surviving passages rendered "<source>:\n<text>" joined by blank
    lines (or the fixed no-results text when none survive). -/
theorem C5_rag_threshold (ms : List RagMatch) :
    ((rag_surviving ms).all fun m => decide (7/10 < m.score)) = true ∧
    rag_sources ms = ((rag_surviving ms).map fun m => m.source.getD "Unknown") ∧
    (rag_sources ms).length = (rag_surviving ms).length ∧
    rag_response_text ms =
      (if (rag_surviving ms).isEmpty then rag_no_results
       else String.intercalate "\n\n"
         ((rag_surviving ms).map fun m => (m.source.getD "") ++ ":\n" ++ (m.text.getD ""))) := by
  refine ⟨?_, rfl, by simp [rag_sources], ?_⟩
  · rw [List.all_eq_true]
    intro m hm
    have hmem : m ∈ ms.filter fun m => decide (7/10 < m.score) := by
      simpa [rag_surviving] using hm
    simpa using (List.mem_filter.mp hmem).2
  · cases h : rag_surviving ms with
    | nil => simp [rag_response_text, h]
    | cons p t => simp [rag_response_text, h, rag_format_response]


-- Claim C6 -------------------------------------------------------------------

def c6_match : RagMatch :=
  ⟨999/1000, Option.some "Act without attachment.",
   Option.some "Bhagavad Gita 2.47", Option.none, Option.none, Option.none⟩

/-- C6 counterexample: for a surviving top passage of score 0.999 the code
    computes int(0.999 * 100) = 99, while round(0.999 * 100) = 100, so the
    claimed round() relationship fails. -/
theorem C6_counterexample :
    rag_confidence [c6_match] = 99 ∧
    round ((999/1000 : ℚ) * 100) = (100 : ℤ) ∧
    ¬ rag_confidence [c6_match] = round ((999/1000 : ℚ) * 100) := by
  have hs : rag_surviving [c6_match] = [c6_match] := by norm_num [rag_surviving, c6_match]
  have h1 : rag_confidence [c6_match] = 99 := by
    unfold rag_confidence
    rw [hs]
    norm_num [c6_match, pyIntOfRat]
  have h2 : round ((999/1000 : ℚ) * 100) = (100 : ℤ) := by norm_num [round_eq]
  refine ⟨h1, h2, ?_⟩
  rw [h1, h2]
  norm_num

/-- C6 amended: the RAG confidence is int() truncation (toward zero) of
    100 times the first surviving passage's score when any passage survives
    the 0.7 threshold, and is 0 with the fixed no-results response text when
    none survives. -/
theorem C6_amended (ms : List RagMatch) :
    rag_confidence ms =
      (match rag_surviving ms with
       | [] => 0
       | p :: _ => pyIntOfRat (p.score * 100)) ∧
    (if (rag_surviving ms).isEmpty then
        rag_confidence ms = 0 ∧ rag_response_text ms = rag_no_results
     else True) := by
  refine ⟨rfl, ?_⟩
  cases h : rag_surviving ms with
  | nil => simp [h, rag_confidence, rag_response_text]
  | cons p t => simp [h]

-- Claim C4 -------------------------------------------------------------------

def c4_match : RagMatch :=
  ⟨3/2, Option.some "text", Option.some "src", Option.none, Option.none, Option.none⟩

def c4_mut : AgentMut := ⟨Option.none, false, Option.none⟩

/-- C4 counterexample: a backend similarity score of 1.5 survives the 0.7
    filter and yields confidence int(1.5 * 100) = 150 > 100 on the RAG
    agent's successful execute result, violating the claimed [0,100] bound. -/
theorem C4_counterexample :
    (execute "RAG_Scripture_Agent" 0 (rag_process (.ok [c4_match])) c4_mut).1.confidence
        = 150 ∧
    ¬ (execute "RAG_Scripture_Agent" 0
        (rag_process (.ok [c4_match])) c4_mut).1.confidence ≤ 100 := by
  have hs : rag_surviving [c4_match] = [c4_match] := by norm_num [rag_surviving, c4_match]
  have h1 : (execute "RAG_Scripture_Agent" 0
      (rag_process (.ok [c4_match])) c4_mut).1.confidence = 150 := by
    show rag_confidence [c4_match] = 150
    unfold rag_confidence
    rw [hs]
    norm_num [c4_match, pyIntOfRat]
  refine ⟨h1, ?_⟩
  rw [h1]
  norm_num

theorem rag_confidence_bounds (ms : List RagMatch)
    (hs : ∀ m ∈ ms, m.score ≤ 1) :
    0 ≤ rag_confidence ms ∧ rag_confidence ms ≤ 100 := by
  unfold rag_confidence
  cases h : rag_surviving ms with
  | nil => simp
  | cons p t =>
    have hmem : p ∈ ms.filter fun m => decide (7/10 < m.score) := by
      have : p ∈ rag_surviving ms := by rw [h]; exact List.mem_cons_self p t
      simpa [rag_surviving] using this
    obtain ⟨hpm, hps⟩ := List.mem_filter.mp hmem
    have hlow : (7/10 : ℚ) < p.score := by simpa using hps
    have hhigh : p.score ≤ 1 := hs p hpm
    have h0 : (0 : ℚ) ≤ p.score * 100 := by nlinarith
    have h100 : p.score * 100 ≤ 100 := by nlinarith
    constructor
    · simp only [pyIntOfRat, if_pos h0]
      exact Int.floor_nonneg.mpr h0
    · simp only [pyIntOfRat, if_pos h0]
      calc Int.floor (p.score * 100) ≤ Int.floor (100 : ℚ) := Int.floor_le_floor h100
        _ = 100 := by norm_num

theorem estimate_confidence_bounds (s : String) :
    0 ≤ estimate_confidence s ∧ estimate_confidence s ≤ 100 :=
  ⟨le_max_left _ _, max_le (by norm_num) (min_le_left _ _)⟩


theorem conf_bounds_of_proc (n : String) (e : Int) (st : AgentMut)
    (p : Except String ProcResult)
    (h : ∀ r, p = .ok r → 0 ≤ r.confidence?.getD 50 ∧ r.confidence?.getD 50 ≤ 100) :
    0 ≤ (execute n e p st).1.confidence ∧ (execute n e p st).1.confidence ≤ 100 := by
  cases p with
  | error msg => exact ⟨le_refl 0, (by norm_num : (0:Int) ≤ 100)⟩
  | ok r => exact h r rfl

theorem context_process_conf_bounds
    (hg : String → Nat → Except String (List HistMsg))
    (ug : String → Except String PyVal) (mh : Nat) (co : Option OrchCtx) :
    0 ≤ (context_process hg ug mh co).confidence?.getD 50 ∧
      (context_process hg ug mh co).confidence?.getD 50 ≤ 100 := by
  unfold context_process
  cases co with
  | none => simp
  | some c =>
    dsimp only
    split <;> norm_num

theorem web_process_conf_bounds
    (search : String → Except String (List WebResult × Option WebResult))
    (query : String) :
    0 ≤ (web_process search query).confidence?.getD 50 ∧
      (web_process search query).confidence?.getD 50 ≤ 100 := by
  unfold web_process
  dsimp only
  split
  · norm_num
  · simp only [Option.getD_some]
    exact ⟨le_min (by positivity) (by norm_num), min_le_right _ _⟩

theorem gemini_proc_conf_bounds (gen : String → Except String String)
    (query : String) (co : Option OrchCtx) :
    ∀ r, gemini_process gen query co = .ok r →
      0 ≤ r.confidence?.getD 50 ∧ r.confidence?.getD 50 ≤ 100 := by
  intro r hr
  unfold gemini_process at hr
  dsimp only at hr
  cases hg : gen (build_prompt query co) with
  | error er => rw [hg] at hr; cases hr
  | ok txt =>
    rw [hg] at hr
    dsimp only at hr
    by_cases he : txt = ""
    · rw [if_pos he] at hr
      cases hr
    · rw [if_neg he] at hr
      injection hr with hr
      rw [← hr]
      exact estimate_confidence_bounds (pyStrip txt)

/-- C4 amended: every AgentResult produced by the fan-out has confidence in
    [0,100], provided the similarity scores returned by the vector backend
    are at most 1 (the code does not clamp the RAG confidence, so scores
    above 1 can exceed the bound; all other agents are clamped by
    construction). -/
theorem C4_amended (B : Backends) (T : Timing) (maxHistory : Nat)
    (query : String) (ctx : OrchCtx) (use_all : Bool) (st : OrchState)
    (hscore : ∀ ms, B.ragSearch query = .ok ms → ∀ m ∈ ms, m.score ≤ 1) :
    ∀ r ∈ (query_all_agents B T maxHistory query ctx use_all st).1,
      0 ≤ r.confidence ∧ r.confidence ≤ 100 := by
  have hrag := conf_bounds_of_proc "RAG_Scripture_Agent" T.rag st.rag
    (rag_process (B.ragSearch query)) (by
      intro r hr
      cases hbr : B.ragSearch query with
      | error e => rw [hbr] at hr; cases hr
      | ok ms =>
        rw [hbr] at hr
        injection hr with hr
        rw [← hr]
        exact rag_confidence_bounds ms (hscore ms hbr))
  have hctx := conf_bounds_of_proc "Context_Memory_Agent" T.ctx st.ctx
    (.ok (context_process B.histGet B.userGet maxHistory (Option.some ctx))) (by
      intro r hr
      injection hr with hr
      rw [← hr]
      exact context_process_conf_bounds B.histGet B.userGet maxHistory (Option.some ctx))
  have hweb := conf_bounds_of_proc "Web_Search_Agent" T.web st.web
    (.ok (web_process B.webSearch query)) (by
      intro r hr
      injection hr with hr
      rw [← hr]
      exact web_process_conf_bounds B.webSearch query)
  have hgem := conf_bounds_of_proc "Gemini_AI_Agent" T.gemini st.gemini
    (gemini_process B.geminiGen query (Option.some ctx))
    (gemini_proc_conf_bounds B.geminiGen query (Option.some ctx))
  intro r hr
  unfold query_all_agents at hr
  by_cases hall : use_all
  · simp only [hall, if_pos] at hr
    rcases List.mem_cons.mp hr with h1 | hr
    · exact h1 ▸ hrag
    rcases List.mem_cons.mp hr with h2 | hr
    · exact h2 ▸ hctx
    rcases List.mem_cons.mp hr with h3 | hr
    · exact h3 ▸ hweb
    rcases List.mem_cons.mp hr with h4 | hr
    · exact h4 ▸ hgem
    · simp at hr
  · simp only [hall, if_neg] at hr
    rcases List.mem_cons.mp hr with h1 | hr
    · exact h1 ▸ hrag
    rcases List.mem_cons.mp hr with h2 | hr
    · exact h2 ▸ hctx
    · simp at hr

def c4w_backends : Backends :=
  { ragSearch := fun _ => .error "pinecone down",
    webSearch := fun _ => .error "serper down",
    geminiGen := fun _ => .error "gemini down",
    histGet := fun _ _ => .error "db down",
    userGet := fun _ => .error "db down",
    verifyCompletion := fun _ => .error "openai down",
    chatCompletion := fun _ => .error "openai down",
    saveStore := fun _ => .error "db down",
    renderVerify := fun q a b c d => q ++ a ++ b ++ c ++ d,
    renderConv := fun v => v }

def c4w_mut : AgentMut := ⟨Option.none, false, Option.none⟩

def c4w_state : OrchState := ⟨c4w_mut, c4w_mut, c4w_mut, c4w_mut⟩

def c4w_timing : Timing := ⟨1, 2, 3, 4⟩

def c4w_ctx : OrchCtx := ⟨"sub1", "What is dharma?", Option.none⟩

/-- C4 witness: the amended bound at a concrete fan-out member. -/
theorem C4_witness :
    0 ≤ (execute "RAG_Scripture_Agent" c4w_timing.rag
          (rag_process (c4w_backends.ragSearch "What is dharma?")) c4w_state.rag).1.confidence ∧
      (execute "RAG_Scripture_Agent" c4w_timing.rag
          (rag_process (c4w_backends.ragSearch "What is dharma?")) c4w_state.rag).1.confidence ≤ 100 := by
  refine C4_amended c4w_backends c4w_timing 15 "What is dharma?" c4w_ctx true c4w_state ?_ _ ?_
  · intro ms h
    simp [c4w_backends] at h
  · unfold query_all_agents
    simp

-- Claim C2 -------------------------------------------------------------------

def c2_backends : Backends :=
  { ragSearch := fun _ => .error "unused",
    webSearch := fun _ => .error "unused",
    geminiGen := fun _ => .error "unused",
    histGet := fun _ _ => .error "unused",
    userGet := fun _ => .error "unused",
    verifyCompletion := fun _ => .error "api down",
    chatCompletion := fun _ => .error "unused",
    saveStore := fun _ => .error "unused",
    renderVerify := fun q a b c d => q ++ a ++ b ++ c ++ d,
    renderConv := fun v => v }

def c2_rag_result : AgentResult :=
  ⟨"RAG_Scripture_Agent", true, "Karma yoga teaches selfless action.", 92,
   ["Bhagavad Gita 2.47"], [], 10, Option.none⟩

def c2_gemini_result : AgentResult :=
  ⟨"Gemini_AI_Agent", true, "Gemini synthesis of duty.", 70,
   ["Gemini AI"], [], 12, Option.none⟩

/-- C2 counterexample: the verification completion raises and the Gemini raw
    response is non-empty, yet _verify_responses returns the Scripture-Search
    raw response, not the Gemini one the claim requires: the code tries the
    RAG slot before the Gemini slot. -/
theorem C2_counterexample :
    c2_backends.verifyCompletion
        (verify_prompt c2_backends "duty" [c2_rag_result, c2_gemini_result])
        = .error "api down" ∧
    ¬ c2_gemini_result.response = "" ∧
    verify_responses c2_backends "duty" [c2_rag_result, c2_gemini_result]
        = "Karma yoga teaches selfless action." ∧
    ¬ verify_responses c2_backends "duty" [c2_rag_result, c2_gemini_result]
        = c2_gemini_result.response := by
  refine ⟨rfl, by decide, by decide, by decide⟩

/-- C2 corrected: when the verification completion raises, the fallback
    order is: the Scripture-Search slot if non-empty and free of the
    "No relevant scripture" substring; else the Gemini slot if non-empty;
    else the Scripture-Search slot if non-empty; else the fixed apology. -/
theorem C2_amended (B : Backends) (query : String) (rs : List AgentResult)
    (err : String)
    (h : B.verifyCompletion (verify_prompt B query rs) = .error err) :
    verify_responses B query rs =
      (if ¬ (route_slots rs).rag = "" ∧
          strContains (route_slots rs).rag no_relevant_scripture = false
       then (route_slots rs).rag
       else if ¬ (route_slots rs).gemini = "" then (route_slots rs).gemini
       else if ¬ (route_slots rs).rag = "" then (route_slots rs).rag
       else apology_text) := by
  unfold verify_responses
  rw [h]

/-- C2 witness: the amended fallback chain at a concrete input where only
    the Gemini slot is populated. -/
theorem C2_witness :
    verify_responses c2_backends "duty" [c2_gemini_result]
        = "Gemini synthesis of duty." := by
  rw [C2_amended c2_backends "duty" [c2_gemini_result] "api down" rfl]
  decide

-- Claim C7 -------------------------------------------------------------------

/-- The chunking transformation as the spec words it: split the raw backend
    output on the literal triple-pipe delimiter, trim each segment, drop
    empty segments, truncate to the first maxMsgs segments in order. -/
def chunk_spec (maxMsgs : Nat) (raw : String) : List String :=
  (((split_pipes_str raw).map pyStrip).filter fun m => ¬ m = "").take maxMsgs

theorem mapStrip_split_strip (s : String) :
    (split_pipes_str (pyStrip s)).map pyStrip = (split_pipes_str s).map pyStrip := by
  simp only [split_pipes_str, List.map_map]
  have hcomp : (pyStrip ∘ fun l => (⟨l⟩ : String)) = (fun l => (⟨l⟩ : String)) ∘ pyTrimCh := by
    funext l
    rfl
  rw [hcomp, ← List.map_map, ← List.map_map]
  have harg : (pyStrip s).toList = pyTrimCh s.toList := rfl
  rw [harg, mapTrim_splitPipes_pyTrim]

/-- C7: the chunking step returns exactly the spec-side segments — split on
    "|||", trim each, drop empties, truncate to the first maxMsgs — falling
    back to the single whole verified answer when the backend raises or zero
    usable segments remain; and the spec's example input yields exactly
    ["A", "B", "C"]. -/
theorem C7_chunking :
    (∀ (B : Backends) (maxMsgs : Nat) (verified : String),
      generate_conversational B maxMsgs verified =
        (match B.chatCompletion (B.renderConv verified) with
         | .error _ => [verified]
         | .ok raw =>
           if (chunk_spec maxMsgs raw).isEmpty then [verified]
           else chunk_spec maxMsgs raw)) ∧
    chunk_spec 6 "A|||B|||  ||| C " = ["A", "B", "C"] := by
  constructor
  · intro B maxMsgs verified
    cases hc : B.chatCompletion (B.renderConv verified) with
    | error e => simp [generate_conversational, hc]
    | ok raw =>
      simp only [generate_conversational, hc]
      have hmsgs :
          ((split_pipes_str (pyStrip raw)).filter fun m => ¬ pyStrip m = "").map pyStrip
            = ((split_pipes_str raw).map pyStrip).filter fun m => ¬ m = "" := by
        rw [map_filter_comm pyStrip (fun m => decide (¬ m = ""))]
        rw [mapStrip_split_strip]
      have hM : (if maxMsgs <
            (((split_pipes_str (pyStrip raw)).filter fun m => ¬ pyStrip m = "").map pyStrip).length
          then (((split_pipes_str (pyStrip raw)).filter fun m => ¬ pyStrip m = "").map pyStrip).take maxMsgs
          else ((split_pipes_str (pyStrip raw)).filter fun m => ¬ pyStrip m = "").map pyStrip)
          = chunk_spec maxMsgs raw := by
        by_cases hlt : maxMsgs <
            (((split_pipes_str (pyStrip raw)).filter fun m => ¬ pyStrip m = "").map pyStrip).length
        · rw [if_pos hlt]
          unfold chunk_spec
          rw [← hmsgs]
        · rw [if_neg hlt]
          unfold chunk_spec
          rw [← hmsgs, List.take_of_length_le (le_of_not_lt hlt)]
      rw [hM]
  · decide

-- Claim C8 -------------------------------------------------------------------

theorem match_citation_at_source {l r : List Char} {cit : Citation}
    (h : match_citation_at l = Option.some (cit, r)) :
    cit.source = citation_source cit.book cit.chapter cit.verse := by
  unfold match_citation_at at h
  cases h1 : matchCI "As mentioned in ".toList l with
  | none => rw [h1] at h; cases h
  | some r1 =>
    rw [h1] at h
    dsimp only at h
    by_cases hb : (r1.takeWhile fun c => ¬ c = ',').isEmpty
    · rw [if_pos hb] at h; cases h
    · rw [if_neg hb] at h
      cases h2 : matchCI ", Chapter ".toList (r1.dropWhile fun c => ¬ c = ',') with
      | none => rw [h2] at h; cases h
      | some r3 =>
        rw [h2] at h
        dsimp only at h
        by_cases hch : (r3.takeWhile isDigitCh).isEmpty
        · rw [if_pos hch] at h; cases h
        · rw [if_neg hch] at h
          cases h3 : matchCI ", Verse ".toList (r3.dropWhile isDigitCh) with
          | none => rw [h3] at h; cases h
          | some r5 =>
            rw [h3] at h
            dsimp only at h
            by_cases hv : (r5.takeWhile isDigitCh).isEmpty
            · rw [if_pos hv] at h; cases h
            · rw [if_neg hv] at h
              injection h with h
              injection h with hcit hr
              rw [← hcit]

theorem extract_citations_aux_source :
    ∀ (fuel : Nat) (l : List Char) (c : Citation), c ∈ extract_citations_aux fuel l →
      c.source = citation_source c.book c.chapter c.verse := by
  intro fuel
  induction fuel with
  | zero =>
    intro l c hc
    simp [extract_citations_aux] at hc
  | succ n ih =>
    intro l c hc
    cases l with
    | nil => simp [extract_citations_aux] at hc
    | cons a rest =>
      unfold extract_citations_aux at hc
      cases hm : match_citation_at (a :: rest) with
      | some pr =>
        obtain ⟨cit, r⟩ := pr
        rw [hm] at hc
        dsimp only at hc
        rcases List.mem_cons.mp hc with hceq | hcmem
        · rw [hceq]
          exact match_citation_at_source hm
        · exact ih r c hcmem
      | none =>
        rw [hm] at hc
        exact ih rest c hc

/-- C8: citation extraction yields one Citation per case-insensitive match of
    the literal pattern, in order of appearance and without deduplication,
    with source derived as "<book>, Chapter <chapter>, Verse <verse>" from
    the matched (trimmed) book and parsed numbers; the spec's example and a
    case-variant both extract as claimed. -/
theorem C8_citation_extraction :
    (∀ s : String, ((extract_citations s).all fun c =>
        c.source == citation_source c.book c.chapter c.verse) = true) ∧
    extract_citations
        "Hello. As mentioned in Bhagavad Gita, Chapter 2, Verse 47, act freely."
      = [⟨"Bhagavad Gita", 2, 47, "Bhagavad Gita, Chapter 2, Verse 47"⟩] ∧
    extract_citations "as MENTIONED in Gita, chapter 3, verse 16!"
      = [⟨"Gita", 3, 16, "Gita, Chapter 3, Verse 16"⟩] ∧
    extract_citations
        "As mentioned in Gita, Chapter 1, Verse 2. As mentioned in Gita, Chapter 1, Verse 2."
      = [⟨"Gita", 1, 2, "Gita, Chapter 1, Verse 2"⟩,
         ⟨"Gita", 1, 2, "Gita, Chapter 1, Verse 2"⟩] := by
  refine ⟨?_, by decide, by decide, by decide⟩
  intro s
  rw [List.all_eq_true]
  intro c hc
  have := extract_citations_aux_source s.toList.length s.toList c hc
  simpa [beq_iff_eq] using this

-- Claim C1 -------------------------------------------------------------------

theorem generate_conversational_length_bounds (B : Backends) (maxMsgs : Nat)
    (v : String) (h : 1 ≤ maxMsgs) :
    1 ≤ (generate_conversational B maxMsgs v).length ∧
      (generate_conversational B maxMsgs v).length ≤ maxMsgs := by
  unfold generate_conversational
  cases hc : B.chatCompletion (B.renderConv v) with
  | error e => simpa using h
  | ok raw =>
    dsimp only
    by_cases hlt : maxMsgs <
        (((split_pipes_str (pyStrip raw)).filter fun m => ¬ pyStrip m = "").map pyStrip).length
    · rw [if_pos hlt]
      have hlen :
          ((((split_pipes_str (pyStrip raw)).filter fun m => ¬ pyStrip m = "").map pyStrip).take
            maxMsgs).length = maxMsgs := by
        rw [List.length_take]
        omega
      have hne : ¬ ((((split_pipes_str (pyStrip raw)).filter fun m => ¬ pyStrip m = "").map
          pyStrip).take maxMsgs).isEmpty = true := by
        rw [List.isEmpty_iff]
        intro hnil
        rw [hnil] at hlen
        simp at hlen
        omega
      rw [if_neg hne, hlen]
      exact ⟨h, le_refl maxMsgs⟩
    · rw [if_neg hlt]
      by_cases hemp :
          (((split_pipes_str (pyStrip raw)).filter fun m => ¬ pyStrip m = "").map pyStrip).isEmpty
      · rw [if_pos hemp]
        simpa using h
      · rw [if_neg hemp]
        constructor
        · have hne : (((split_pipes_str (pyStrip raw)).filter fun m => ¬ pyStrip m = "").map
              pyStrip) ≠ [] := by
            simpa [List.isEmpty_iff] using hemp
          exact List.length_pos.mpr hne
        · exact le_of_not_lt hlt

/-- C1: process_query is total for every behaviour of the agent, verification,
    chunking, and persistence collaborators (all failure modes are Except
    values absorbed internally), and the returned messages list always has
    between 1 and maxMsgs entries (MAX_MESSAGES_PER_RESPONSE, default 6). -/
theorem C1_messages_bounds (B : Backends) (T : Timing) (maxMsgs maxHistory : Nat)
    (query subscriber_id : String) (use_all_agents : Bool) (st : OrchState)
    (h : 1 ≤ maxMsgs) :
    1 ≤ (process_query B T maxMsgs maxHistory query subscriber_id
          use_all_agents st).1.messages.length ∧
      (process_query B T maxMsgs maxHistory query subscriber_id
          use_all_agents st).1.messages.length ≤ maxMsgs :=
  generate_conversational_length_bounds B maxMsgs
    (verify_responses B query
      (query_all_agents B T maxHistory query ⟨subscriber_id, query, Option.none⟩
        use_all_agents st).1) h

def c1w_backends : Backends :=
  { ragSearch := fun _ => .error "pinecone down",
    webSearch := fun _ => .error "serper down",
    geminiGen := fun _ => .error "gemini down",
    histGet := fun _ _ => .error "db down",
    userGet := fun _ => .error "db down",
    verifyCompletion := fun _ => .error "openai down",
    chatCompletion := fun _ => .error "openai down",
    saveStore := fun _ => .error "db down",
    renderVerify := fun q a b c d => q ++ a ++ b ++ c ++ d,
    renderConv := fun v => v }

def c1w_mut : AgentMut := ⟨Option.none, false, Option.none⟩

def c1w_state : OrchState := ⟨c1w_mut, c1w_mut, c1w_mut, c1w_mut⟩

def c1w_timing : Timing := ⟨1, 2, 3, 4⟩

/-- C1 witness: the bounds at the default maxMsgs = 6 with every backend
    raising. -/
theorem C1_witness :
    1 ≤ (process_query c1w_backends c1w_timing 6 15 "What is dharma?" "sub1"
          true c1w_state).1.messages.length ∧
      (process_query c1w_backends c1w_timing 6 15 "What is dharma?" "sub1"
          true c1w_state).1.messages.length ≤ 6 :=
  C1_messages_bounds c1w_backends c1w_timing 6 15 "What is dharma?" "sub1"
    true c1w_state (by norm_num)

-- Claim C9 -------------------------------------------------------------------

theorem exec_view (n : String) (e : Int) (p : Except String ProcResult) (st : AgentMut) :
    ((execute n e p st).1.agent, (execute n e p st).1.success,
      (execute n e p st).1.response)
      = (match p with
         | .ok r => (n, true, r.response?.getD "")
         | .error _ => (n, false, "")) := by
  cases p <;> rfl

theorem route_step_congr (acc : Slots) (r r2 : AgentResult)
    (ha : r.agent = r2.agent) (hs : r.success = r2.success)
    (hr : r.response = r2.response) :
    route_step acc r = route_step acc r2 := by
  unfold route_step
  rw [ha, hs, hr]

theorem route_slots_congr_aux :
    ∀ (rs1 : List AgentResult) (acc : Slots) (rs2 : List AgentResult),
      rs1.map (fun r => (r.agent, r.success, r.response))
        = rs2.map (fun r => (r.agent, r.success, r.response)) →
      rs1.foldl route_step acc = rs2.foldl route_step acc := by
  intro rs1
  induction rs1 with
  | nil =>
    intro acc rs2 h
    cases rs2 with
    | nil => rfl
    | cons b u => simp at h
  | cons a t ih =>
    intro acc rs2 h
    cases rs2 with
    | nil => simp at h
    | cons b u =>
      simp only [List.map_cons, List.cons.injEq, Prod.mk.injEq] at h
      obtain ⟨⟨h1, h2, h3⟩, htu⟩ := h
      simp only [List.foldl_cons]
      rw [route_step_congr acc a b h1 h2 h3]
      exact ih _ u htu

theorem route_slots_congr (rs1 rs2 : List AgentResult)
    (h : rs1.map (fun r => (r.agent, r.success, r.response))
        = rs2.map (fun r => (r.agent, r.success, r.response))) :
    route_slots rs1 = route_slots rs2 :=
  route_slots_congr_aux rs1 ⟨"", "", "", ""⟩ rs2 h

theorem verify_responses_congr (B : Backends) (q : String)
    (rs1 rs2 : List AgentResult) (h : route_slots rs1 = route_slots rs2) :
    verify_responses B q rs1 = verify_responses B q rs2 := by
  unfold verify_responses verify_prompt
  rw [h]

/-- C9: with all backends deterministic functions (as modelled), two
    sequential quick_response calls with identical inputs produce identical
    messages and citations, for any wall-clock timings and any initial
    mutable per-agent fields: the state written by execute never flows into
    messages or citations. -/
theorem C9_quick_response_deterministic (B : Backends) (maxMsgs maxHistory : Nat)
    (query subscriber_id : String) (T1 T2 : Timing) (st : OrchState) :
    (quick_response B T1 maxMsgs maxHistory query subscriber_id st).1.messages
      = (quick_response B T2 maxMsgs maxHistory query subscriber_id
          (quick_response B T1 maxMsgs maxHistory query subscriber_id st).2).1.messages ∧
    (quick_response B T1 maxMsgs maxHistory query subscriber_id st).1.citations
      = (quick_response B T2 maxMsgs maxHistory query subscriber_id
          (quick_response B T1 maxMsgs maxHistory query subscriber_id st).2).1.citations := by
  have hview : ∀ (T : Timing) (s : OrchState),
      ((query_all_agents B T maxHistory query ⟨subscriber_id, query, Option.none⟩
          false s).1).map (fun r => (r.agent, r.success, r.response))
        = [(match rag_process (B.ragSearch query) with
            | .ok r => ("RAG_Scripture_Agent", true, r.response?.getD "")
            | .error _ => ("RAG_Scripture_Agent", false, "")),
           ("Context_Memory_Agent", true,
            (context_process B.histGet B.userGet maxHistory
              (Option.some ⟨subscriber_id, query, Option.none⟩)).response?.getD "")] := by
    intro T s
    simp only [query_all_agents, Bool.false_eq_true, if_false, List.map_cons, List.map_nil]
    rw [exec_view, exec_view]
  have hv : verify_responses B query
        (query_all_agents B T1 maxHistory query ⟨subscriber_id, query, Option.none⟩
          false st).1
      = verify_responses B query
        (query_all_agents B T2 maxHistory query ⟨subscriber_id, query, Option.none⟩
          false (quick_response B T1 maxMsgs maxHistory query subscriber_id st).2).1 := by
    apply verify_responses_congr
    apply route_slots_congr
    rw [hview T1 st, hview T2 _]
  constructor
  · show generate_conversational B maxMsgs (verify_responses B query _)
        = generate_conversational B maxMsgs (verify_responses B query _)
    rw [hv]
  · show extract_citations (verify_responses B query _)
        = extract_citations (verify_responses B query _)
    rw [hv]
